import Mathlib

/-!
Verification development for the `call!` expression compiler of the
`ez-jni-rs` repository (crate `jni_macros`).

The definitions below are a shallow embedding of the Rust source:

* `Tok` models a `proc_macro2` token tree (identifiers, punctuation,
  literals, and delimited groups).
* `CallClassPath`, `CType`, `CParameter`, `CReturn`, `CResultType` embed
  the AST types of `src/jni_macros/src/call.rs` together with their
  `syn::Parse` implementations (parse failure is `none`).
* `TClassPath` embeds the nested-path-aware `ClassPath` of
  `src/jni_macros/src/types.rs` with its parser and renderers.
* `methodSig` embeds the signature-string construction of the `call`
  proc-macro in `src/jni_macros/src/lib.rs` (lines 190-205).
* `arrayLiteralOps` embeds the sequence of JNI bridge operations emitted
  by `impl ToTokens for Parameter` for array-literal parameters.
* `runCall` embeds the return-demarshalling wrapper emitted by `call`
  (lib.rs lines 210-286), as a function of the bridge's behaviour.
* `jniFn` embeds the `jni_fn` attribute expansion (lib.rs lines 52-119)
  with the package registry passed explicitly.
-/

namespace EzJni

/-- Model of a `proc_macro2` token tree: identifier, the punctuation the
call grammar uses, a literal, or a delimited group. -/
inductive Tok where
  | ident (s : String)
  | dot
  | dollar
  | comma
  | lt
  | gt
  | lit (s : String)
  | paren (ts : List Tok)
  | bracket (ts : List Tok)
  | brace (ts : List Tok)

/-- Raw value produced by the call bridge (`JValueGen` after conversion):
a null reference, a non-null object reference, or a primitive. -/
inductive Raw where
  | nullRef
  | objRef (id : Nat)
  | primVal (n : Int)
deriving DecidableEq

/-- Embeds `JObjectGen::is_null`: only the null reference is null. -/
def Raw.isNull : Raw → Bool
  | .nullRef => true
  | _ => false

/-! ## ClassPath of call.rs (lines 80-123) -/

/-- Embeds `call.rs` `ClassPath`: dot-separated package idents plus the
final class ident.  There is no nested path and no arity check. -/
structure CallClassPath where
  packages : List String
  className : String
deriving DecidableEq

/-- Embeds `Itertools::intersperse(..., sep).collect::<String>()`: the
strings of the list joined by the separator. -/
def joinSep (sep : String) : List String → String
  | [] => ""
  | [s] => s
  | s :: rest => s ++ sep ++ joinSep sep rest

/-- Embeds `impl Display for ClassPath` in call.rs (lines 112-123),
which joins all components with `/`. -/
def CallClassPath.display (c : CallClassPath) : String :=
  joinSep "/" (c.packages ++ [c.className])

/-- Embeds `ClassPath::sig_type` in call.rs (line 87): `format!("L{self};")`. -/
def CallClassPath.sigType (c : CallClassPath) : String :=
  "L" ++ c.display ++ ";"

/-- Loop of `Punctuated::<Ident, Token![.]>::parse_separated_nonempty`
after the first ident: while the next token is a dot, consume the dot and
then an ident (failing if a dot is not followed by an ident). -/
def sepDotAux : List Tok → List String → Option (List String × List Tok)
  | Tok.dot :: Tok.ident s :: rest, acc => sepDotAux rest (acc ++ [s])
  | Tok.dot :: _, _ => none
  | toks, acc => some (acc, toks)

/-- Embeds `Punctuated::<Ident, Token![.]>::parse_separated_nonempty`:
one ident, then `(. ident)*`, leaving the remaining tokens. -/
def parseSepNonemptyDot : List Tok → Option (List String × List Tok)
  | Tok.ident s :: rest => sepDotAux rest [s]
  | _ => none

/-- Embeds `impl Parse for ClassPath` in call.rs (lines 95-111): parse the
nonempty dot-separated ident list; the last ident is the class and the
rest are the packages.  No minimum-length check is made. -/
def callClassPathParse (toks : List Tok) : Option (CallClassPath × List Tok) :=
  match parseSepNonemptyDot toks with
  | some (path, rest) =>
    match path.getLast? with
    | some cls => some ({ packages := path.dropLast, className := cls }, rest)
    | none => none
  | none => none

/-! ## Type of call.rs (lines 125-210) -/

/-- Embeds the `Type` enum of call.rs: nine lowercase keyword variants
plus `Object(ClassPath)`. -/
inductive CType where
  | void
  | byte
  | bool
  | char
  | short
  | int
  | long
  | float
  | double
  | object (c : CallClassPath)
deriving DecidableEq

/-- Embeds `Type::sig_char` (call.rs lines 135-148). -/
def CType.sigChar : CType → Char
  | .void => 'v'
  | .byte => 'b'
  | .bool => 'z'
  | .char => 'c'
  | .short => 's'
  | .int => 'i'
  | .long => 'j'
  | .float => 'f'
  | .double => 'd'
  | .object _ => 'l'

/-- Embeds `Type::sig_type` (call.rs lines 150-155): the uppercase
signature character, or `L<path>;` for an Object. -/
def CType.sigType : CType → String
  | .object c => c.sigType
  | t => t.sigChar.toUpper.toString

/-- Embeds `Type::is_void` (call.rs lines 156-161). -/
def CType.isVoid : CType → Bool
  | .void => true
  | _ => false

/-- Embeds `impl Parse for Type` (call.rs lines 172-193): an ident that is
one of the nine keywords, otherwise fall back to parsing a `ClassPath`
from the original stream.  Note `"bool"` is the only boolean keyword;
`"boolean"` falls through to the Object case. -/
def cTypeParse : List Tok → Option (CType × List Tok)
  | Tok.ident s :: rest =>
    match s with
    | "void" => some (.void, rest)
    | "byte" => some (.byte, rest)
    | "bool" => some (.bool, rest)
    | "char" => some (.char, rest)
    | "short" => some (.short, rest)
    | "int" => some (.int, rest)
    | "long" => some (.long, rest)
    | "float" => some (.float, rest)
    | "double" => some (.double, rest)
    | _ =>
      match callClassPathParse (Tok.ident s :: rest) with
      | some (c, r) => some (CType.object c, r)
      | none => none
  | _ => none

/-! ## Parameter of call.rs (lines 212-288) -/

/-- Embeds the `Parameter` enum of call.rs: a single value, a pre-built
array passed by value, or an array literal of element expressions. -/
inductive CParameter where
  | single (ty : CType) (value : List Tok)
  | array (ty : CType) (value : List Tok)
  | arrayLiteral (ty : CType) (arr : List (List Tok))

/-- Embeds `Parameter::ty` (call.rs lines 232-238). -/
def CParameter.ty : CParameter → CType
  | .single t _ => t
  | .array t _ => t
  | .arrayLiteral t _ => t

/-- Embeds `Parameter::is_array` (call.rs lines 240-245). -/
def CParameter.isArray : CParameter → Bool
  | .single _ _ => false
  | .array _ _ => true
  | .arrayLiteral _ _ => true

/-- Splits a token stream at its top-level commas (groups are atomic
tokens, so commas inside them do not split). -/
def splitTopComma (toks : List Tok) : List (List Tok) :=
  toks.foldr
    (fun t acc =>
      match t, acc with
      | Tok.comma, acc => [] :: acc
      | t, a :: as => (t :: a) :: as
      | t, [] => [[t]])
    [[]]

/-- Embeds `Punctuated::<Expr, Token![,]>::parse_terminated` as used for
array-literal elements: an empty stream yields no elements; otherwise
each element is the maximal comma-free run of tokens, a single trailing
comma is allowed, and an empty run (leading, doubled, or lone comma) is a
parse error. -/
def parseExprList (toks : List Tok) : Option (List (List Tok)) :=
  match toks with
  | [] => some []
  | _ =>
    let pieces := splitTopComma toks
    let pieces :=
      match pieces.getLast? with
      | some [] => pieces.dropLast
      | _ => pieces
    if pieces.all (fun p => !p.isEmpty) then some pieces else none

/-- Embeds `impl Parse for Parameter` (call.rs lines 247-288).  A
bracketed type gives the array forms (an inner bracketed value is an
`ArrayLiteral`), otherwise a single parameter; `void` is rejected in
both positions.  Delimited groups must be consumed exactly (syn reports
leftover tokens in a group as an error). -/
def parameterParse (toks : List Tok) : Option (CParameter × List Tok) :=
  match toks with
  | Tok.bracket inner :: rest =>
    match cTypeParse inner with
    | some (ty, []) =>
      if ty.isVoid then none
      else
        match rest with
        | Tok.paren valueToks :: rest2 =>
          match valueToks with
          | [Tok.bracket arrToks] =>
            match parseExprList arrToks with
            | some arr => some (.arrayLiteral ty arr, rest2)
            | none => none
          | Tok.bracket _ :: _ => none
          | _ => some (.array ty valueToks, rest2)
        | _ => none
    | _ => none
  | _ =>
    match cTypeParse toks with
    | some (ty, rest) =>
      if ty.isVoid then none
      else
        match rest with
        | Tok.paren valueToks :: rest2 => some (.single ty valueToks, rest2)
        | _ => none
    | _ => none

/-- Fuelled loop of `Punctuated::<Parameter, Token![,]>::parse_terminated`
(used for the call's parameter list, `MethodCall::parse` line 30). -/
def parseParamsAux : Nat → List Tok → Option (List CParameter)
  | _, [] => some []
  | 0, _ => none
  | Nat.succ fuel, toks =>
    match parameterParse toks with
    | some (p, rest) =>
      match rest with
      | [] => some [p]
      | Tok.comma :: rest2 =>
        match parseParamsAux fuel rest2 with
        | some ps => some (p :: ps)
        | none => none
      | _ => none
    | none => none

/-- Embeds the parameter-list parse of `MethodCall::parse`: parameters
separated by commas, with an optional trailing comma. -/
def parseParams (toks : List Tok) : Option (List CParameter) :=
  parseParamsAux (toks.length + 1) toks

/-! ## Return and ResultType of call.rs (lines 380-461) -/

/-- Embeds the `ResultType` enum of call.rs (lines 443-446): the `Ok`
payload of a `Result` return, either a plain type or a nullable class. -/
inductive CResultType where
  | assertive (ty : CType)
  | option (c : CallClassPath)
deriving DecidableEq

/-- Embeds the `Return` enum of call.rs (lines 388-393).  The `Result`
variant's error component is currently the fixed `String` representation
(a unit in the source), so it is not carried here. -/
inductive CReturn where
  | assertive (ty : CType)
  | option (c : CallClassPath)
  | result (ok : CResultType)
deriving DecidableEq

/-- Embeds `Return::parse_option` (call.rs lines 397-409): after the
`Option` ident, parse `<`, a `Type` that must be an Object class path,
and `>`. -/
def parseOptionGeneric (toks : List Tok) : Option (CallClassPath × List Tok) :=
  match toks with
  | Tok.lt :: rest =>
    match cTypeParse rest with
    | some (CType.object c, rest2) =>
      match rest2 with
      | Tok.gt :: rest3 => some (c, rest3)
      | _ => none
    | some _ => none
    | none => none
  | _ => none

/-- Embeds `impl Parse for ResultType` (call.rs lines 447-461): `Option`
recurses into the generic argument, a nested `Result` is an error, and
anything else is an assertive type. -/
def cResultTypeParse (toks : List Tok) : Option (CResultType × List Tok) :=
  match toks with
  | Tok.ident "Option" :: rest =>
    match parseOptionGeneric rest with
    | some (c, r) => some (.option c, r)
    | none => none
  | Tok.ident "Result" :: _ => none
  | _ =>
    match cTypeParse toks with
    | some (t, r) => some (.assertive t, r)
    | none => none

/-- Embeds `impl Parse for Return` (call.rs lines 411-440).  `Result`
takes two generic arguments and the error type must be the single ident
`String`. -/
def cReturnParse (toks : List Tok) : Option (CReturn × List Tok) :=
  match toks with
  | Tok.ident "Option" :: rest =>
    match parseOptionGeneric rest with
    | some (c, r) => some (.option c, r)
    | none => none
  | Tok.ident "Result" :: rest =>
    match rest with
    | Tok.lt :: rest2 =>
      match cResultTypeParse rest2 with
      | some (ok, rest3) =>
        match rest3 with
        | Tok.comma :: Tok.ident e :: rest5 =>
          if e = "String" then
            match rest5 with
            | Tok.gt :: rest6 => some (.result ok, rest6)
            | _ => none
          else none
        | _ => none
      | none => none
    | _ => none
  | _ =>
    match cTypeParse toks with
    | some (t, r) => some (.assertive t, r)
    | none => none

/-! ## Signature construction in lib.rs `call` (lines 190-205) -/

/-- Signature fragment of the `Result` payload.  lib.rs writes the
or-pattern `Return::Assertive(ty) | Return::Result(ty, _) => ty.sig_type()`,
treating the payload as a `Type` even though call.rs stores a
`ResultType`; this gives that pattern its componentwise reading. -/
def CResultType.sigType : CResultType → String
  | .assertive ty => ty.sigType
  | .option c => c.sigType

/-- Signature contribution of one parameter (lib.rs lines 193-197): a `[`
prefix for any array form, then the type's signature string. -/
def paramSigPart (p : CParameter) : String :=
  (if p.isArray then "[" else "") ++ p.ty.sigType

/-- Return-type fragment of the signature (lib.rs lines 200-203). -/
def returnSigType : CReturn → String
  | .assertive ty => ty.sigType
  | .result ok => ok.sigType
  | .option c => c.sigType

/-- Embeds the signature-string construction of lib.rs (lines 190-205):
`(`, each parameter's contribution in order, `)`, then the return
fragment. -/
def methodSig (params : List CParameter) (ret : CReturn) : String :=
  (params.foldl (fun buf p => buf ++ paramSigPart p) "(") ++ ")" ++ returnSigType ret

/-! ## ClassPath of types.rs (lines 101-264) -/

/-- Embeds `NestedPath` of types.rs: dollar-separated enclosing classes
plus the final nested class. -/
structure NestedPath where
  classes : List String
  finalClass : String
deriving DecidableEq

/-- Embeds the nested-path-aware `ClassPath` of types.rs. -/
structure TClassPath where
  packages : List String
  className : String
  nestedPath : Option NestedPath
deriving DecidableEq

/-- Loop of `Punctuated::<Ident, Token![$]>::parse_separated_nonempty`
after the first ident, mirroring `sepDotAux` for the `$` separator. -/
def sepDollarAux : List Tok → List String → Option (List String × List Tok)
  | Tok.dollar :: Tok.ident s :: rest, acc => sepDollarAux rest (acc ++ [s])
  | Tok.dollar :: _, _ => none
  | toks, acc => some (acc, toks)

/-- Embeds `Punctuated::<Ident, Token![$]>::parse_separated_nonempty`. -/
def parseSepNonemptyDollar : List Tok → Option (List String × List Tok)
  | Tok.ident s :: rest => sepDollarAux rest [s]
  | _ => none

/-- Embeds `impl Parse for ClassPath` in types.rs (lines 201-248): parse
the dot-separated section, pop the class, reject a path with no package
component, then optionally consume `$` and a dollar-separated nested
path. -/
def tClassPathParse (toks : List Tok) : Option (TClassPath × List Tok) :=
  match parseSepNonemptyDot toks with
  | none => none
  | some (path, rest) =>
    match path.getLast? with
    | none => none
    | some cls =>
      if path.dropLast.isEmpty then none
      else
        match rest with
        | Tok.dollar :: rest2 =>
          match parseSepNonemptyDollar rest2 with
          | none => none
          | some (npath, rest3) =>
            match npath.getLast? with
            | none => none
            | some fin =>
              some ({ packages := path.dropLast, className := cls,
                      nestedPath := some { classes := npath.dropLast, finalClass := fin } },
                    rest3)
        | _ => some ({ packages := path.dropLast, className := cls, nestedPath := none }, rest)

/-- Embeds `ClassPath::to_string_helper` in types.rs (lines 171-191):
packages and class joined by `sep`, then, if present, `nested_sep`
followed by the nested classes joined by `nested_sep`. -/
def TClassPath.toStringHelper (cp : TClassPath) (sep nestedSep : String) : String :=
  joinSep sep (cp.packages ++ [cp.className]) ++
    (match cp.nestedPath with
     | some np => nestedSep ++ joinSep nestedSep (np.classes ++ [np.finalClass])
     | none => "")

/-- Embeds `ClassPath::to_jni_class_path` (types.rs lines 162-164). -/
def TClassPath.toJniClassPath (cp : TClassPath) : String :=
  cp.toStringHelper "/" "$"

/-- Embeds `impl Display for ClassPath` in types.rs (lines 255-259): both
separators are `.` (nested classes are also joined by dots). -/
def TClassPath.displayForm (cp : TClassPath) : String :=
  cp.toStringHelper "." "."

/-! ## Array-literal code generation (call.rs `impl ToTokens for Parameter`,
lines 320-375) -/

/-- Bridge operations appearing in the emitted block for an array-literal
parameter: allocate a primitive array, bulk-fill it, allocate an object
array (with its length and class-path string literal), or store one
object element at an index. -/
inductive ArrOp where
  | allocPrim (kind : String) (len : Nat)
  | fillPrim (kind : String) (values : List (List Tok))
  | allocObj (len : Nat) (classPath : String)
  | setObjElem (idx : Nat) (value : List Tok)

/-- The ident used in `new_{ident}_array` and `set_{ident}_array_region`:
the parsed keyword, except that `bool` is replaced by `boolean`
(call.rs lines 330-334). -/
def primKindName : CType → String
  | .void => "void"
  | .byte => "byte"
  | .bool => "boolean"
  | .char => "char"
  | .short => "short"
  | .int => "int"
  | .long => "long"
  | .float => "float"
  | .double => "double"
  | .object c => c.display

/-- Embeds the bridge-call sequence emitted for an `ArrayLiteral`
parameter (call.rs lines 320-375).  A primitive element type emits one
allocation of the literal's length and one bulk fill; an Object element
type emits one `new_object_array` call of the literal's length (the class
literal is the `Display` rendering of the path, line 357) and then, via
the enumerate loop of lines 364-369, one `set_object_array_element` call
per element in source order.  The `void` case is `panic!("Unreachable")`
in the source (the parser rejects void parameters), modelled as `none`. -/
def arrayLiteralOps (ty : CType) (arr : List (List Tok)) : Option (List ArrOp) :=
  match ty with
  | CType.void => none
  | CType.object c =>
    some ((arr.enum).foldl
      (fun tt ie => tt ++ [ArrOp.setObjElem ie.1 ie.2])
      [ArrOp.allocObj arr.length c.display])
  | ty =>
    some [ArrOp.allocPrim (primKindName ty) arr.length,
          ArrOp.fillPrim (primKindName ty) arr]

/-! ## Return demarshalling emitted by `call` (lib.rs lines 210-286) -/

/-- Behaviour of the external call bridge for one invocation: the raw
result of `call_static_method`/`call_method` (or a bridge-level error),
whether the single-letter conversion to the declared kind succeeds, and
whether an exception is pending afterwards (with its rendered message). -/
structure Bridge where
  callResult : Except String Raw
  convertOk : Bool
  excPending : Bool
  excMessage : String

/-- Final shape produced by the emitted program.  The constructors cover
every shape the spec's return table mentions: a fatal abort, a plain
value, an optional, a `Result` of a plain value, a `Result` of an
optional, and a `Result` error. -/
inductive ProgResult where
  | panicked (msg : String)
  | value (v : Raw)
  | optionalVal (o : Option Raw)
  | okVal (v : Raw)
  | okOptional (o : Option Raw)
  | errVal (msg : String)
deriving DecidableEq

/-- The non-null assertion message of lib.rs line 251 (the method name is
interpolated there; it is not tracked here). -/
def nonNullMsg : String := "Expected Object returned by the method to not be NULL"

/-- Modelled from the spec: `crate::utils::catch_exception(env)` lives in
the crate's `utils` module, which is not among the provided sources.  Per
§6 (`check_pending_exception`) and the §4.5 return table, a pending
exception becomes the error value and otherwise the check succeeds. -/
def catchException (b : Bridge) : Except String Unit :=
  if b.excPending then Except.error b.excMessage else Except.ok ()

/-- Whether the emitted `Result` wrapper performs the null check
(lib.rs lines 276-279): the source matches the payload with
`Type::Object(_)`, which reads componentwise as the assertive-Object
payload; every other payload falls to the wildcard arm with no check. -/
def resultNullCheck : CResultType → Bool
  | .assertive (CType.object _) => true
  | _ => false

/-- Embeds the program emitted by `call` around the bridge invocation
(lib.rs lines 210-286).  The `jni_call` stage panics if the bridge call
fails or the conversion to the declared kind fails (the `extras` of lines
211-234).  Then: `Option` returns map null to empty and anything else to
present (lines 255-263); an assertive Object panics on null (lines
264-273); a `Result` return performs the payload null check, then maps a
pending exception to the error value and otherwise wraps the raw result
— never an optional — in the ok branch (lines 275-285). -/
def runCall (ret : CReturn) (b : Bridge) : ProgResult :=
  match b.callResult with
  | Except.error e => ProgResult.panicked ("Failed to call method: " ++ e)
  | Except.ok raw =>
    if !b.convertOk then
      ProgResult.panicked "Expected method to return the declared type"
    else
      match ret with
      | CReturn.option _ =>
        if raw.isNull then ProgResult.optionalVal none
        else ProgResult.optionalVal (some raw)
      | CReturn.assertive ty =>
        match ty with
        | CType.object _ =>
          if raw.isNull then ProgResult.panicked nonNullMsg
          else ProgResult.value raw
        | _ => ProgResult.value raw
      | CReturn.result rty =>
        if resultNullCheck rty && raw.isNull then ProgResult.panicked nonNullMsg
        else
          match catchException b with
          | Except.error e => ProgResult.errVal e
          | Except.ok _ => ProgResult.okVal raw

/-! ## The `jni_fn` attribute expansion (lib.rs lines 52-119) -/

/-- The relevant shape of the input function item for `jni_fn`. -/
structure FnItem where
  isPub : Bool
  lifetimes : List String
  hasGenericTypes : Bool
  argNames : List String
  fnName : String

/-- The function item emitted on success: renamed, `#[no_mangle]`, system
ABI, a fresh `local` lifetime, and the two injected leading arguments. -/
structure EmittedFn where
  fnName : String
  noMangle : Bool
  systemAbi : Bool
  lifetimes : List String
  argNames : List String

/-- Output of one `jni_fn` expansion: either a list of `compile_error!`
diagnostics (and nothing else), or the rewritten function. -/
inductive JniFnOutput where
  | diagnostics (msgs : List String)
  | emitted (f : EmittedFn)

/-- The diagnostic of lib.rs line 105. -/
def pkgNotCalledMsg : String := "Macro jni_macros::package! has not been called."

/-- Embeds `.replace(['.', '/'], "_")` of lib.rs line 104. -/
def mangleSeps (s : String) : String :=
  String.mk (s.data.map fun c => if c = '.' ∨ c = '/' then '_' else c)

/-- Embeds `.replace('_', "_1")` of lib.rs line 107. -/
def escapeUnderscores (s : String) : String :=
  String.mk (s.data.foldr (fun c acc => if c = '_' then '_' :: '1' :: acc else c :: acc) [])

/-- Embeds the `jni_fn` attribute expansion (lib.rs lines 52-119), with
the process-wide `PACKAGE_NAME` registry passed explicitly.  The checks
run in source order: `pub` visibility, no lifetime named `local`, no
generic types, no argument named `env` or `_class`; each failure returns
only its diagnostic.  Then, if the registry is unset, the expansion
returns only the `package!`-not-called diagnostic (the input function is
not emitted at all); otherwise the function is renamed to
`Java_<mangled package and extra data>_<name with _ escaped>` and
re-emitted with the JNI plumbing added. -/
def jniFn (registry : Option String) (extraPackageData : Option String)
    (f : FnItem) : JniFnOutput :=
  if !f.isPub then
    .diagnostics ["Function must have \x27pub\x27 visibility"]
  else if f.lifetimes.contains "local" then
    .diagnostics ["Function can\x27t have a lifetime named \x22local\x22"]
  else if f.hasGenericTypes then
    .diagnostics ["Function can\x27t have generic types"]
  else if f.argNames.any (fun a => a = "env" || a = "_class") then
    .diagnostics ["Function can\x27t have an argument named \x22env\x22 or \x22_class\x22"]
  else
    match registry with
    | none => .diagnostics [pkgNotCalledMsg]
    | some packageName =>
      let classPath := mangleSeps (packageName ++ "." ++ extraPackageData.getD "")
      let newName := "Java_" ++ classPath ++ "_" ++ escapeUnderscores f.fnName
      .emitted { fnName := newName, noMangle := true, systemAbi := true,
                 lifetimes := f.lifetimes ++ ["local"],
                 argNames := "env" :: "_class" :: f.argNames }

/-! ## Well-formed class-path sources and character-level renaming -/

/-- Maps a function over every character of a string. -/
def mapChars (f : Char → Char) (s : String) : String :=
  String.mk (s.data.map f)

/-- The character substitution `.` to `/` (all other characters fixed). -/
def dotToSlash (c : Char) : Char := if c = '.' then '/' else c

/-- The character substitution `$` to `.` (all other characters fixed). -/
def dollarToDot (c : Char) : Char := if c = '$' then '.' else c

/-- A path segment is clean when it contains neither `.` nor `$`
(true of every Rust identifier, hence of every parsed segment). -/
def cleanSeg (s : String) : Prop := '.' ∉ s.data ∧ '$' ∉ s.data

instance (s : String) : Decidable (cleanSeg s) := by
  unfold cleanSeg
  infer_instance

/-- Tokens `(. ident)*` continuing a dot-separated segment list. -/
def dotTail : List String → List Tok
  | [] => []
  | s :: rest => Tok.dot :: Tok.ident s :: dotTail rest

/-- Tokens of a dot-separated segment list. -/
def dotToks : List String → List Tok
  | [] => []
  | s :: rest => Tok.ident s :: dotTail rest

/-- Tokens `($ ident)*` continuing a dollar-separated segment list. -/
def dollarTail : List String → List Tok
  | [] => []
  | s :: rest => Tok.dollar :: Tok.ident s :: dollarTail rest

/-- Tokens of a dollar-separated segment list. -/
def dollarToks : List String → List Tok
  | [] => []
  | s :: rest => Tok.ident s :: dollarTail rest

/-- The token sequence of a well-formed class path: dot-separated
packages and class, then optionally `$` and the dollar-separated nested
classes. -/
def classPathTokens (pkgs : List String) (cls : String)
    (nested : Option (List String × String)) : List Tok :=
  dotToks (pkgs ++ [cls]) ++
    (match nested with
     | some nf => Tok.dollar :: dollarToks (nf.1 ++ [nf.2])
     | none => [])

/-- The source text of a well-formed class path, as the user writes it:
`pkg.pkg.Class` optionally followed by `$Nested$Nested2`. -/
def sourceText (pkgs : List String) (cls : String)
    (nested : Option (List String × String)) : String :=
  joinSep "." (pkgs ++ [cls]) ++
    (match nested with
     | some nf => "$" ++ joinSep "$" (nf.1 ++ [nf.2])
     | none => "")

/-- The nested-path segments of a well-formed class-path description. -/
def nestedSegs : Option (List String × String) → List String
  | some nf => nf.1 ++ [nf.2]
  | none => []

/-- The structured `TClassPath` a well-formed description denotes. -/
def mkNested (nested : Option (List String × String)) : Option NestedPath :=
  nested.map fun nf => { classes := nf.1, finalClass := nf.2 }

/-- The `TClassPath` with the given packages, class and nested path. -/
def mkTPath (pkgs : List String) (cls : String)
    (nested : Option (List String × String)) : TClassPath :=
  { packages := pkgs, className := cls, nestedPath := mkNested nested }

theorem mapChars_append (f : Char → Char) (a b : String) :
    mapChars f (a ++ b) = mapChars f a ++ mapChars f b := by
  apply String.ext
  simp [mapChars, String.data_append]

theorem mapChars_fix (f : Char → Char) (s : String) (h : ∀ c ∈ s.data, f c = c) :
    mapChars f s = s := by
  apply String.ext
  show s.data.map f = s.data
  exact (List.map_congr_left h).trans (List.map_id _)

theorem mapChars_joinSep (f : Char → Char) (sep : String) (l : List String) :
    mapChars f (joinSep sep l) = joinSep (mapChars f sep) (l.map (mapChars f)) := by
  induction l with
  | nil => rfl
  | cons s rest ih =>
    cases rest with
    | nil => rfl
    | cons t ts =>
      simp only [joinSep, List.map_cons, mapChars_append, ih]

theorem sepDotAux_dotTail (segs : List String) (rest : List Tok) (acc : List String)
    (h : ∀ ts, rest ≠ Tok.dot :: ts) :
    sepDotAux (dotTail segs ++ rest) acc = some (acc ++ segs, rest) := by
  induction segs generalizing acc with
  | nil =>
    simp only [dotTail, List.nil_append, List.append_nil]
    cases rest with
    | nil => rfl
    | cons t ts =>
      cases t with
      | dot => exact absurd rfl (h ts)
      | ident s => rfl
      | dollar => rfl
      | comma => rfl
      | lt => rfl
      | gt => rfl
      | lit s => rfl
      | paren ts2 => rfl
      | bracket ts2 => rfl
      | brace ts2 => rfl
  | cons s ss ih =>
    have hstep : sepDotAux (dotTail (s :: ss) ++ rest) acc
        = sepDotAux (dotTail ss ++ rest) (acc ++ [s]) := rfl
    rw [hstep, ih]
    simp

theorem parseSepNonemptyDot_dotToks (l : List String) (hl : l ≠ []) (rest : List Tok)
    (h : ∀ ts, rest ≠ Tok.dot :: ts) :
    parseSepNonemptyDot (dotToks l ++ rest) = some (l, rest) := by
  cases l with
  | nil => exact absurd rfl hl
  | cons s segs =>
    show sepDotAux (dotTail segs ++ rest) [s] = some (s :: segs, rest)
    rw [sepDotAux_dotTail segs rest [s] h]
    simp

theorem sepDollarAux_dollarTail (segs : List String) (rest : List Tok) (acc : List String)
    (h : ∀ ts, rest ≠ Tok.dollar :: ts) :
    sepDollarAux (dollarTail segs ++ rest) acc = some (acc ++ segs, rest) := by
  induction segs generalizing acc with
  | nil =>
    simp only [dollarTail, List.nil_append, List.append_nil]
    cases rest with
    | nil => rfl
    | cons t ts =>
      cases t with
      | dollar => exact absurd rfl (h ts)
      | ident s => rfl
      | dot => rfl
      | comma => rfl
      | lt => rfl
      | gt => rfl
      | lit s => rfl
      | paren ts2 => rfl
      | bracket ts2 => rfl
      | brace ts2 => rfl
  | cons s ss ih =>
    have hstep : sepDollarAux (dollarTail (s :: ss) ++ rest) acc
        = sepDollarAux (dollarTail ss ++ rest) (acc ++ [s]) := rfl
    rw [hstep, ih]
    simp

theorem parseSepNonemptyDollar_dollarToks (l : List String) (hl : l ≠ []) (rest : List Tok)
    (h : ∀ ts, rest ≠ Tok.dollar :: ts) :
    parseSepNonemptyDollar (dollarToks l ++ rest) = some (l, rest) := by
  cases l with
  | nil => exact absurd rfl hl
  | cons s segs =>
    show sepDollarAux (dollarTail segs ++ rest) [s] = some (s :: segs, rest)
    rw [sepDollarAux_dollarTail segs rest [s] h]
    simp

theorem tClassPathParse_wf (pkgs : List String) (cls : String)
    (nested : Option (List String × String)) (hp : pkgs ≠ []) :
    tClassPathParse (classPathTokens pkgs cls nested) = some (mkTPath pkgs cls nested, []) := by
  have hnotdot : ∀ ts, (match nested with
      | some nf => Tok.dollar :: dollarToks (nf.1 ++ [nf.2])
      | none => ([] : List Tok)) ≠ Tok.dot :: ts := by
    intro ts
    cases nested <;> simp
  have hne : pkgs.isEmpty = false := by
    cases pkgs with
    | nil => exact absurd rfl hp
    | cons a b => rfl
  simp only [classPathTokens, tClassPathParse,
    parseSepNonemptyDot_dotToks (pkgs ++ [cls]) (by simp) _ hnotdot,
    List.getLast?_concat, List.dropLast_concat, hne]
  cases nested with
  | none => simp [mkTPath, mkNested]
  | some nf =>
    simp only [mkTPath, mkNested, Option.map_some]
    have hdollar := parseSepNonemptyDollar_dollarToks (nf.1 ++ [nf.2]) (by simp) [] (by simp)
    rw [List.append_nil] at hdollar
    simp [hdollar, List.getLast?_concat, List.dropLast_concat]

theorem dotToSlash_fix (s : String) (h : cleanSeg s) : mapChars dotToSlash s = s := by
  apply mapChars_fix
  intro c hc
  unfold dotToSlash
  rw [if_neg]
  intro he
  exact h.1 (he ▸ hc)

theorem dollarToDot_fix (s : String) (h : cleanSeg s) : mapChars dollarToDot s = s := by
  apply mapChars_fix
  intro c hc
  unfold dollarToDot
  rw [if_neg]
  intro he
  exact h.2 (he ▸ hc)

theorem map_clean_dot (l : List String) (h : ∀ s ∈ l, cleanSeg s) :
    l.map (mapChars dotToSlash) = l := by
  have hc := List.map_congr_left (fun s hs => dotToSlash_fix s (h s hs))
  exact hc.trans (List.map_id _)

theorem map_clean_dollar (l : List String) (h : ∀ s ∈ l, cleanSeg s) :
    l.map (mapChars dollarToDot) = l := by
  have hc := List.map_congr_left (fun s hs => dollarToDot_fix s (h s hs))
  exact hc.trans (List.map_id _)

theorem render_jni_eq (pkgs : List String) (cls : String)
    (nested : Option (List String × String))
    (hclean : ∀ s ∈ (pkgs ++ [cls]) ++ nestedSegs nested, cleanSeg s) :
    mapChars dotToSlash (sourceText pkgs cls nested) = (mkTPath pkgs cls nested).toJniClassPath := by
  have hmain : ∀ s ∈ pkgs ++ [cls], cleanSeg s := by
    intro s hs
    apply hclean
    rw [List.mem_append]
    exact Or.inl hs
  unfold sourceText mkTPath TClassPath.toJniClassPath TClassPath.toStringHelper
  rw [mapChars_append, mapChars_joinSep, map_clean_dot _ hmain]
  have hsep : mapChars dotToSlash "." = "/" := by decide
  rw [hsep]
  congr 1
  cases nested with
  | none => rfl
  | some nf =>
    have hn : ∀ s ∈ nf.1 ++ [nf.2], cleanSeg s := by
      intro s hs
      exact hclean s (by simp [nestedSegs, hs])
    show mapChars dotToSlash ("$" ++ joinSep "$" (nf.1 ++ [nf.2])) = _
    rw [mapChars_append, mapChars_joinSep, map_clean_dot _ hn]
    have hd : mapChars dotToSlash "$" = "$" := by decide
    rw [hd]
    rfl

theorem render_display_eq (pkgs : List String) (cls : String)
    (nested : Option (List String × String))
    (hclean : ∀ s ∈ (pkgs ++ [cls]) ++ nestedSegs nested, cleanSeg s) :
    mapChars dollarToDot (sourceText pkgs cls nested) = (mkTPath pkgs cls nested).displayForm := by
  have hmain : ∀ s ∈ pkgs ++ [cls], cleanSeg s := by
    intro s hs
    apply hclean
    rw [List.mem_append]
    exact Or.inl hs
  unfold sourceText mkTPath TClassPath.displayForm TClassPath.toStringHelper
  rw [mapChars_append, mapChars_joinSep, map_clean_dollar _ hmain]
  have hsep : mapChars dollarToDot "." = "." := by decide
  rw [hsep]
  congr 1
  cases nested with
  | none => rfl
  | some nf =>
    have hn : ∀ s ∈ nf.1 ++ [nf.2], cleanSeg s := by
      intro s hs
      exact hclean s (by simp [nestedSegs, hs])
    show mapChars dollarToDot ("$" ++ joinSep "$" (nf.1 ++ [nf.2])) = _
    rw [mapChars_append, mapChars_joinSep, map_clean_dollar _ hn]
    have hd : mapChars dollarToDot "$" = "." := by decide
    rw [hd]
    rfl

/-! ## Concrete inputs used by the claims -/

/-- The class path `java.lang.Object` as call.rs parses it. -/
def javaLangObject : CallClassPath := { packages := ["java","lang"], className := "Object" }

/-- Parameter tokens of `multiArg(boolean(true), [int]([1,2]))`. -/
def c1Params : List Tok :=
  [Tok.ident "boolean", Tok.paren [Tok.lit "true"], Tok.comma,
   Tok.bracket [Tok.ident "int"], Tok.paren [Tok.bracket [Tok.lit "1", Tok.comma, Tok.lit "2"]]]

/-- The parameters the call grammar produces for `c1Params`: `boolean` is
not a recognised keyword of call.rs, so it parses as an Object class
path. -/
def c1Parsed : List CParameter :=
  [CParameter.single (CType.object { packages := [], className := "boolean" }) [Tok.lit "true"],
   CParameter.arrayLiteral CType.int [[Tok.lit "1"], [Tok.lit "2"]]]

/-- Bridge behaviour: the call returns null, conversion succeeds, no
exception is pending. -/
def resultOptionNullBridge : Bridge :=
  { callResult := Except.ok Raw.nullRef, convertOk := true, excPending := false, excMessage := "e" }

/-- Bridge behaviour: the call returns null, conversion succeeds, and an
exception is pending with message `boom`. -/
def pendingNullBridge : Bridge :=
  { callResult := Except.ok Raw.nullRef, convertOk := true, excPending := true, excMessage := "boom" }

/-- Bridge behaviour: the call returns the primitive 7, conversion
succeeds, and an exception is pending with message `boom`. -/
def intResultBridge : Bridge :=
  { callResult := Except.ok (Raw.primVal 7), convertOk := true, excPending := true, excMessage := "boom" }

/-- Bridge behaviour: the call returns null, conversion succeeds, and an
exception happens to be pending (it must be ignored by `Option` returns). -/
def nullOptionBridge : Bridge :=
  { callResult := Except.ok Raw.nullRef, convertOk := true, excPending := true, excMessage := "e" }

/-- The parsed form of `me.author.MyClass$Nested`. -/
def nestedExample : TClassPath :=
  { packages := ["me","author"], className := "MyClass",
    nestedPath := some { classes := [], finalClass := "Nested" } }

/-- A non-`pub` input function for `jni_fn`. -/
def nonPubFn : FnItem :=
  { isPub := false, lifetimes := [], hasGenericTypes := false, argNames := [], fnName := "hello_world" }

/-- A well-formed input function for `jni_fn` (passes every signature check). -/
def okFn : FnItem :=
  { isPub := true, lifetimes := [], hasGenericTypes := false, argNames := ["s"], fnName := "hello_world" }

/-- The nine primitive keywords of the call.rs `Type` grammar. -/
def primKeywords : List String :=
  ["void", "byte", "bool", "char", "short", "int", "long", "float", "double"]

/-! ## Claims -/

/-- Claim C1 (code bug): the claim states that the signature emitted for
`multiArg(boolean(true), [int]([1,2])) -> void` is exactly `(Z[I)V`.
Evaluating the embedded pipeline shows the parameter list parses with
`boolean` as an Object class path (call.rs `Type::parse` recognises only
`bool` as the boolean keyword), so the emitted signature string is
`(Lboolean;[I)V`, not `(Z[I)V`.  The repository's own test suite calls
`multiArg` with `boolean(true)` against a Java `boolean` parameter, and
the types.rs model maps `boolean` to `Z`, so the claim matches the intent
and the code is the slip. -/
theorem C1_emitted_signature_at_multiArg :
    parseParams c1Params = some c1Parsed ∧
    methodSig c1Parsed (CReturn.assertive CType.void) = "(Lboolean;[I)V" ∧
    ("(Lboolean;[I)V" : String) ≠ "(Z[I)V" := by
  refine ⟨rfl, rfl, by decide⟩

/-- Claim C2 (code bug): the claim states that for a return specification
`Result(Option(class), err)` a null raw result maps to ok(empty).  The
emitted program's `Result` arm (lib.rs lines 275-285) never builds an
optional: with a null raw result and no pending exception it yields the
raw null reference in the ok branch, which is not ok(empty). -/
theorem C2_result_option_null_not_wrapped :
    runCall (CReturn.result (CResultType.option javaLangObject)) resultOptionNullBridge =
      ProgResult.okVal Raw.nullRef ∧
    ProgResult.okVal Raw.nullRef ≠ ProgResult.okOptional none := by
  refine ⟨rfl, by simp⟩

/-- Claim C3 (counterexample): the claim says every successfully parsed
ClassPath has at least one package segment, but the call grammar's own
ClassPath parser (call.rs lines 95-111) accepts the bare class name
`MyClass` and returns a path with no package segments. -/
theorem C3_counterexample :
    callClassPathParse [Tok.ident "MyClass"] =
      some ({ packages := [], className := "MyClass" }, []) := rfl

/-- Claim C3 (corrected): the nested-path-aware ClassPath parser of
types.rs enforces the invariant — every path it returns has at least one
package segment, and the bare names `MyClass` and `MyClass$Nested` are
rejected — while the call grammar's simpler parser does not (see the
counterexample). -/
theorem C3_nested_parser_requires_package :
    (∀ (toks : List Tok) (cp : TClassPath) (rest : List Tok),
      tClassPathParse toks = some (cp, rest) → cp.packages ≠ []) ∧
    tClassPathParse [Tok.ident "MyClass"] = none ∧
    tClassPathParse [Tok.ident "MyClass", Tok.dollar, Tok.ident "Nested"] = none := by
  refine ⟨?_, rfl, rfl⟩
  intro toks cp rest h
  unfold tClassPathParse at h
  split at h
  · exact Option.noConfusion h
  · split at h
    · exact Option.noConfusion h
    · split at h
      · exact Option.noConfusion h
      · rename_i hempty
        split at h
        · split at h
          · exact Option.noConfusion h
          · split at h
            · exact Option.noConfusion h
            · simp only [Option.some.injEq, Prod.mk.injEq] at h
              obtain ⟨hcp, hrest⟩ := h
              subst hcp
              simpa [List.isEmpty_iff] using hempty
        · simp only [Option.some.injEq, Prod.mk.injEq] at h
          obtain ⟨hcp, hrest⟩ := h
          subst hcp
          simpa [List.isEmpty_iff] using hempty

/-- Witness for C3: the theorem applied to the parse of `me.C`. -/
theorem C3_witness :
    ({ packages := ["me"], className := "C", nestedPath := none } : TClassPath).packages ≠ [] :=
  C3_nested_parser_requires_package.1 [Tok.ident "me", Tok.dot, Tok.ident "C"]
    { packages := ["me"], className := "C", nestedPath := none } [] rfl

/-- Claim C4 (counterexample): the claim says that for every
`Result<T, String>` return a pending exception yields the error branch
regardless of the converted value.  For `Result<java.lang.Object, String>`
with a null raw result and a pending exception the emitted program
aborts at the null check (which lib.rs places before the exception
check), not the error branch. -/
theorem C4_counterexample :
    runCall (CReturn.result (CResultType.assertive (CType.object javaLangObject))) pendingNullBridge =
      ProgResult.panicked nonNullMsg ∧
    ProgResult.panicked nonNullMsg ≠ ProgResult.errVal "boom" := by
  refine ⟨rfl, by simp⟩

/-- Claim C4 (corrected): for a `Result` return whose invocation and
conversion succeed, provided the assertive-Object null abort does not
fire, a pending exception yields the error branch regardless of the
converted value and otherwise the ok branch carries the value; and when
the payload is an assertive Object and the raw result is null, the
program aborts even if an exception is pending. -/
theorem C4_result_exception_demarshal :
    (∀ (rty : CResultType) (b : Bridge) (raw : Raw),
      b.callResult = Except.ok raw → b.convertOk = true →
      ¬(resultNullCheck rty = true ∧ raw.isNull = true) →
      runCall (CReturn.result rty) b =
        if b.excPending then ProgResult.errVal b.excMessage else ProgResult.okVal raw) ∧
    (∀ (c : CallClassPath) (b : Bridge),
      b.callResult = Except.ok Raw.nullRef → b.convertOk = true →
      runCall (CReturn.result (CResultType.assertive (CType.object c))) b =
        ProgResult.panicked nonNullMsg) := by
  constructor
  · intro rty b raw hc hconv hnn
    have hb : (resultNullCheck rty && raw.isNull) = false := by
      cases hr : resultNullCheck rty with
      | false => rfl
      | true =>
        cases hn : raw.isNull with
        | false => rfl
        | true => exact absurd ⟨hr, hn⟩ hnn
    simp only [runCall, catchException, hc, hconv, Bool.not_true, hb, Bool.false_eq_true,
      if_false]
    cases hp : b.excPending <;> simp
  · intro c b hc hconv
    simp [runCall, hc, hconv, resultNullCheck, Raw.isNull]

/-- Witness for C4: the theorem applied to `Result<int, String>` with the
primitive 7 returned and an exception pending; the outcome is the error
branch with the exception's message. -/
theorem C4_witness :
    runCall (CReturn.result (CResultType.assertive CType.int)) intResultBridge =
      ProgResult.errVal "boom" :=
  C4_result_exception_demarshal.1 (CResultType.assertive CType.int) intResultBridge
    (Raw.primVal 7) rfl rfl (by decide)

/-- Claim C5 (counterexample): the claim says the display rendering of a
parsed well-formed path reproduces the source exactly.  For
`me.author.MyClass$Nested` (whose source text is computed from
`sourceText` below) the display rendering joins the nested class with a
dot — `me.author.MyClass.Nested` — so the round-trip fails. -/
theorem C5_counterexample :
    tClassPathParse (classPathTokens ["me","author"] "MyClass" (some ([], "Nested"))) =
      some (nestedExample, []) ∧
    sourceText ["me","author"] "MyClass" (some ([], "Nested")) = "me.author.MyClass$Nested" ∧
    nestedExample.displayForm = "me.author.MyClass.Nested" ∧
    nestedExample.displayForm ≠ "me.author.MyClass$Nested" := by
  refine ⟨rfl, rfl, rfl, by decide⟩

/-- Claim C5 (corrected): for every well-formed class path with at least
one package segment (segments free of `.` and `$` characters), parsing
succeeds and the JNI rendering is the source text with every `.`
replaced by `/` and every `$` left unchanged — as the claim states —
while the display rendering is the source text with every `$` replaced
by `.`; the round-trip is exact precisely when the path has no nested
segment. -/
theorem C5_parse_render_roundtrip (pkgs : List String) (cls : String)
    (nested : Option (List String × String)) (hp : pkgs ≠ [])
    (hclean : ∀ s ∈ (pkgs ++ [cls]) ++ nestedSegs nested, cleanSeg s) :
    tClassPathParse (classPathTokens pkgs cls nested) = some (mkTPath pkgs cls nested, []) ∧
    (mkTPath pkgs cls nested).toJniClassPath = mapChars dotToSlash (sourceText pkgs cls nested) ∧
    (mkTPath pkgs cls nested).displayForm = mapChars dollarToDot (sourceText pkgs cls nested) ∧
    (nested = none → (mkTPath pkgs cls nested).displayForm = sourceText pkgs cls nested) := by
  refine ⟨tClassPathParse_wf pkgs cls nested hp,
    (render_jni_eq pkgs cls nested hclean).symm,
    (render_display_eq pkgs cls nested hclean).symm, ?_⟩
  intro hnone
  subst hnone
  rfl

/-- Witness for C5: the theorem applied to `me.author.MyClass$Nested`. -/
theorem C5_witness :
    tClassPathParse (classPathTokens ["me","author"] "MyClass" (some ([], "Nested"))) =
      some (mkTPath ["me","author"] "MyClass" (some ([], "Nested")), []) :=
  (C5_parse_render_roundtrip ["me","author"] "MyClass" (some ([], "Nested"))
    (by decide) (by decide)).1

/-- Claim C6 (confirmed): an ArrayLiteral parameter of Object element
type with 3 elements emits exactly one object-array allocation whose
length argument is 3, followed by exactly 3 element stores, one per
index in the source order of the literal's elements. -/
theorem C6_object_array_literal_three (c : CallClassPath) (e0 e1 e2 : List Tok) :
    arrayLiteralOps (CType.object c) [e0, e1, e2] =
      some [ArrOp.allocObj 3 c.display, ArrOp.setObjElem 0 e0,
            ArrOp.setObjElem 1 e1, ArrOp.setObjElem 2 e2] := by rfl

/-- Claim C7 (confirmed): for a return specification `Option<class>`,
once the invocation and conversion succeed, the emitted program yields
the absent value exactly when the raw result is null and the present
value wrapping the reference otherwise, with no abort; the pending
exception flag does not appear in the outcome. -/
theorem C7_option_null_demarshal (c : CallClassPath) (b : Bridge) (raw : Raw)
    (hc : b.callResult = Except.ok raw) (hconv : b.convertOk = true) :
    runCall (CReturn.option c) b =
      ProgResult.optionalVal (if raw.isNull then none else some raw) ∧
    (∀ msg, runCall (CReturn.option c) b ≠ ProgResult.panicked msg) := by
  constructor
  · simp only [runCall, hc, hconv, Bool.not_true, Bool.false_eq_true, if_false]
    cases hn : raw.isNull <;> simp [hn]
  · intro msg
    simp only [runCall, hc, hconv, Bool.not_true, Bool.false_eq_true, if_false]
    cases hn : raw.isNull <;> simp

/-- Witness for C7: the theorem applied to a null raw result with an
exception pending; the outcome is the absent value. -/
theorem C7_witness :
    runCall (CReturn.option javaLangObject) nullOptionBridge = ProgResult.optionalVal none :=
  (C7_option_null_demarshal javaLangObject nullOptionBridge Raw.nullRef rfl rfl).1

/-- Claim C8 (confirmed): a return specification `Option<T>` with a
primitive `T` (any of the nine keywords of the call grammar) is rejected
by the return parser, while `Option<java.lang.String>` parses to the
Option return with that class path. -/
theorem C8_option_requires_object :
    (∀ kw ∈ primKeywords,
      cReturnParse [Tok.ident "Option", Tok.lt, Tok.ident kw, Tok.gt] = none) ∧
    cReturnParse [Tok.ident "Option", Tok.lt, Tok.ident "java", Tok.dot, Tok.ident "lang",
        Tok.dot, Tok.ident "String", Tok.gt] =
      some (CReturn.option { packages := ["java","lang"], className := "String" }, []) := by
  constructor
  · intro kw hkw
    fin_cases hkw <;> rfl
  · rfl

/-- Witness for C8: the theorem applied to `Option<byte>`. -/
theorem C8_witness :
    cReturnParse [Tok.ident "Option", Tok.lt, Tok.ident "byte", Tok.gt] = none :=
  C8_option_requires_object.1 "byte" (by decide)

/-- Claim C9 (counterexample): the claim says a zero-element ArrayLiteral
generates an allocation of length 0 and no fill or element-store
operations.  For the primitive literal `[int]([])` the parser accepts
the parameter, but the generated block still contains one
`set_int_array_region` bulk-fill call (with an empty slice) after the
allocation. -/
theorem C9_counterexample :
    parameterParse [Tok.bracket [Tok.ident "int"], Tok.paren [Tok.bracket []]] =
      some (CParameter.arrayLiteral CType.int [], []) ∧
    arrayLiteralOps CType.int [] =
      some [ArrOp.allocPrim "int" 0, ArrOp.fillPrim "int" []] := by
  refine ⟨rfl, rfl⟩

/-- Claim C9 (corrected): a zero-element ArrayLiteral is accepted by the
parameter parser (shown for `[java.lang.Object]([])`); for an Object
element type the generated code allocates a length-0 array and performs
no element stores, while for a primitive element type the allocation is
followed by a single bulk-fill call with an empty slice. -/
theorem C9_zero_element_literal :
    parameterParse [Tok.bracket [Tok.ident "java", Tok.dot, Tok.ident "lang", Tok.dot,
        Tok.ident "Object"], Tok.paren [Tok.bracket []]] =
      some (CParameter.arrayLiteral (CType.object javaLangObject) [], []) ∧
    (∀ c : CallClassPath, arrayLiteralOps (CType.object c) [] = some [ArrOp.allocObj 0 c.display]) ∧
    (∀ ty : CType, ty.isVoid = false → (∀ c, ty ≠ CType.object c) →
      arrayLiteralOps ty [] =
        some [ArrOp.allocPrim (primKindName ty) 0, ArrOp.fillPrim (primKindName ty) []]) := by
  refine ⟨rfl, fun c => rfl, ?_⟩
  intro ty h1 h2
  cases ty with
  | void => exact absurd h1 (by simp [CType.isVoid])
  | object c => exact absurd rfl (h2 c)
  | byte => rfl
  | bool => rfl
  | char => rfl
  | short => rfl
  | int => rfl
  | long => rfl
  | float => rfl
  | double => rfl

/-- Witness for C9: the theorem applied to the primitive type `long`. -/
theorem C9_witness :
    arrayLiteralOps CType.long [] =
      some [ArrOp.allocPrim "long" 0, ArrOp.fillPrim "long" []] :=
  C9_zero_element_literal.2.2 CType.long rfl (fun _ h => CType.noConfusion h)

/-- Claim C10 (counterexample): the claim says every expansion of
`jni_fn` under an unset registry produces the diagnostic that the
configuration macro has not been called.  A non-`pub` input function
fails the visibility check first and produces only that diagnostic, which
is not the configuration diagnostic. -/
theorem C10_counterexample :
    jniFn none none nonPubFn =
      JniFnOutput.diagnostics ["Function must have \x27pub\x27 visibility"] ∧
    ("Function must have \x27pub\x27 visibility" : String) ≠ pkgNotCalledMsg := by
  refine ⟨rfl, by decide⟩

/-- Claim C10 (corrected): with the package registry unset, every
expansion that passes the signature checks (pub visibility, no `local`
lifetime, no generic types, no `env`/`_class` argument) produces exactly
the diagnostic that `jni_macros::package!` has not been called and emits
no function at all; and no expansion under an unset registry ever emits
an exported function (in particular none with an empty package prefix). -/
theorem C10_unset_registry_diagnoses :
    (∀ (extra : Option String) (f : FnItem), f.isPub = true →
      f.lifetimes.contains "local" = false → f.hasGenericTypes = false →
      f.argNames.any (fun a => a = "env" || a = "_class") = false →
      jniFn none extra f = JniFnOutput.diagnostics [pkgNotCalledMsg]) ∧
    (∀ (extra : Option String) (f : FnItem) (g : EmittedFn),
      jniFn none extra f ≠ JniFnOutput.emitted g) := by
  constructor
  · intro extra f h1 h2 h3 h4
    unfold jniFn
    rw [h1, h2, h3, h4]
    rfl
  · intro extra f g h
    unfold jniFn at h
    split_ifs at h

/-- Witness for C10: the theorem applied to a well-formed input function
with no registry set. -/
theorem C10_witness :
    jniFn none none okFn = JniFnOutput.diagnostics [pkgNotCalledMsg] :=
  C10_unset_registry_diagnoses.1 none okFn rfl rfl rfl rfl

end EzJni
